import Mathlib

/-!
Verification of the vk_photos downloader (src/vk_photos.py) against its
natural-language specification.

The Python source is shallowly embedded: strings become `List Char`,
dictionaries become association lists with last-binding-wins lookup,
remote calls become oracle functions passed as parameters, exceptions
become `Except` / explicit status values, and `sys.exit(1)` becomes an
explicit exit field in the result record.
-/

set_option autoImplicit false

namespace VkPhotos

/-! ## Character and string utilities (models of Python str primitives) -/

/-- Whitespace characters removed by the default Python `str.strip()`
(ASCII part: space, tab, newline, carriage return, vertical tab, form feed). -/
def isPySpace (c : Char) : Bool :=
  c.toNat = 32 || c.toNat = 9 || c.toNat = 10 || c.toNat = 13 || c.toNat = 11 || c.toNat = 12

/-- ASCII decimal digit test, as used by Python `int()` on the strings
this program feeds it. -/
def isAsciiDigit (c : Char) : Bool :=
  48 ≤ c.toNat && c.toNat ≤ 57

/-- Remove leading characters satisfying `isPySpace`. -/
def trimLeft (l : List Char) : List Char :=
  l.dropWhile isPySpace

/-- Remove trailing characters satisfying `isPySpace`. -/
def trimRight (l : List Char) : List Char :=
  (l.reverse.dropWhile isPySpace).reverse

/-- Model of Python `str.strip()`: remove leading and trailing whitespace. -/
def stripChars (l : List Char) : List Char :=
  trimRight (trimLeft l)

/-- Model of Python `str.split(sep)` for a one-character separator `c`:
maximal runs between occurrences of `c`, with empty runs kept
(`"a".split("a") == ["", ""]`). The result is always non-empty. -/
def splitOnChar (c : Char) : List Char → List (List Char)
  | [] => [[]]
  | x :: xs =>
    match splitOnChar c xs with
    | [] => [[x]]
    | h :: t => if x = c then [] :: h :: t else (x :: h) :: t

/-- Fuel-driven worker for `splitStr`; the fuel keeps the recursion
structural so that the kernel can evaluate it. -/
def splitStrF (c : Char) (cs : List Char) : Nat → List Char → List (List Char)
  | _, [] => [[]]
  | 0, l => [l]
  | fuel + 1, x :: xs =>
    if (c :: cs).isPrefixOf (x :: xs) then
      [] :: splitStrF c cs fuel (xs.drop cs.length)
    else
      match splitStrF c cs fuel xs with
      | [] => [[x]]
      | h :: t => (x :: h) :: t

/-- Model of Python `str.split(sep)` for a multi-character separator
`c :: cs`: scan left to right, splitting at each non-overlapping
occurrence of the separator. -/
def splitStr (c : Char) (cs : List Char) (l : List Char) : List (List Char) :=
  splitStrF c cs l.length l

/-- Whether the separator `sep` occurs as a contiguous subsequence of `l`. -/
def containsSeq (sep : List Char) : List Char → Bool
  | [] => sep.isEmpty
  | x :: xs => sep.isPrefixOf (x :: xs) || containsSeq sep xs

/-- Value of a list of ASCII digits read in base 10. -/
def digitsVal (l : List Char) : Nat :=
  l.foldl (fun a c => a * 10 + (c.toNat - 48)) 0

/-- Digits-only parse used by `pyInt` after sign handling: `some` exactly
when the list is a non-empty all-digit sequence. -/
def natFromDigits (l : List Char) : Option Nat :=
  if !l.isEmpty && l.all isAsciiDigit then some (digitsVal l) else none

/-- Model of Python `int(s)` on the strings this program produces:
surrounding whitespace is ignored, an optional single leading sign is
accepted, and the remainder must be a non-empty digit sequence.
`none` models the `ValueError` raised on malformed input. -/
def pyInt (l : List Char) : Option Int :=
  match stripChars l with
  | [] => none
  | c :: rest =>
    if c = '+' then (natFromDigits rest).map (fun n => (n : Int))
    else if c = '-' then (natFromDigits rest).map (fun n => -(n : Int))
    else (natFromDigits (c :: rest)).map (fun n => (n : Int))

/-! ## PathSanitizer: del_restricted_symbols (src/vk_photos.py lines 167-185) -/

/-- The set `sym_replace` of characters not allowed in Windows directory
names, copied from the source. -/
def restricted : List Char :=
  ['"', ':', '&', '.', '|', '\\', '/', '*', '?', '<', '>']

/-- Model of `"-".join(title.split(s))` for a single character `s`:
every occurrence of `s` is replaced by one hyphen. -/
def replaceChar (t : List Char) (s : Char) : List Char :=
  t.map (fun c => if c = s then '-' else c)

/-- The loop body of `del_restricted_symbols`: iterate over the characters
of the stripped original title (Python iterates over the string value the
loop started with) and, for each restricted character met, replace all of
its occurrences in the working title. -/
def delWork (title : List Char) (cs : List Char) : List Char :=
  cs.foldl (fun acc s => if s ∈ restricted then replaceChar acc s else acc) title

/-- Model of `del_restricted_symbols`: strip the title, then run the
replacement loop over the characters of the stripped title. -/
def del_restricted_symbols (album_title : List Char) : List Char :=
  delWork (stripChars album_title) (stripChars album_title)

/-! ## Photo records and variant selection (download_photos, lines 97-137) -/

/-- A VK photo object as used by the program: numeric id, capture
timestamp in seconds since the epoch, and the list of size variants,
each a (resolution-tag, url) pair in the order returned by the API. -/
structure Photo where
  id : Int
  date : Int
  sizes : List (List Char × List Char)
deriving DecidableEq

/-- The dictionary `photo_links = \x7bsize["type"]: size["url"] for size in
photo["sizes"]\x7d`: later pairs with the same tag overwrite earlier ones,
so lookup returns the last binding. -/
def photoLinks (sizes : List (List Char × List Char)) (k : List Char) : Option (List Char) :=
  (sizes.reverse.find? (fun p => p.1 == k)).map (fun p => p.2)

/-- The fixed resolution-tag priority string "wzyxrqpmos", iterated over
by the selection loop (each Python character is a one-character string
key into the dictionary). -/
def priority : List (List Char) :=
  [['w'], ['z'], ['y'], ['x'], ['r'], ['q'], ['p'], ['m'], ['o'], ['s']]

/-- Python truthiness of the `url` variable: `None` and the empty string
are falsy, every other string is truthy. -/
def truthyS : Option (List Char) → Bool
  | none => false
  | some s => !s.isEmpty

/-- Model of the selection loop
`for photo_type in "wzyxrqpmos": url = photo_links.get(photo_type); if url: break`.
After the loop, `url` holds the first truthy lookup, or the lookup of the
last tag tried if none was truthy. -/
def selectUrl (links : List Char → Option (List Char)) : List (List Char) → Option (List Char)
  | [] => none
  | [t] => links t
  | t :: ts => if truthyS (links t) then links t else selectUrl links ts

/-- VK API returns only 1000 photos in one response (MAX_PHOTO_NUM). -/
def MAX_PHOTO_NUM : Nat := 1000

/-- Network failure from `requests.get` (`requests.exceptions.RequestException`;
`MissingSchema`, raised on a `None` or empty url, is a subclass). -/
inductive FetchErr | network
deriving DecidableEq

/-- A file written to disk: full path and the bytes of `response.content`. -/
structure FileRec where
  path : List Char
  content : List UInt8
deriving DecidableEq

/-- Observable outcome of `download_photos`: the 1-based progress numbers
printed, the files written (in order), and `some 1` when the function
terminated the process via `sys.exit(1)`. -/
structure DlOutcome where
  progress : List Nat
  files : List FileRec
  exit : Option Nat
deriving DecidableEq

/-- The body of `download_photos`, indexed by the running `enumerate`
counter `i`.  `fmt` models `datetime.fromtimestamp(...).strftime("%Y%m%d@%H%M")`
(an external, timezone-dependent collaborator); `fetch` models
`requests.get` on a real (non-null, non-empty) url.  `requests.get` on
`None` or `""` raises `MissingSchema`, a `RequestException`, so those
cases take the same `sys.exit(1)` path as a network failure. -/
def download_photos_aux (fmt : Int → List Char)
    (fetch : List Char → Except FetchErr (List UInt8))
    (output_path : List Char) (offset : Nat) : Nat → List Photo → DlOutcome
  | _, [] => ⟨[], [], none⟩
  | i, ph :: rest =>
    let prog := offset * MAX_PHOTO_NUM + i + 1
    if ph.sizes.isEmpty then
      let o := download_photos_aux fmt fetch output_path offset (i + 1) rest
      ⟨prog :: o.progress, o.files, o.exit⟩
    else
      let url := selectUrl (photoLinks ph.sizes) priority
      let photo_title := fmt ph.date ++ '_' :: (toString ph.id).data
      let full_path := output_path ++ '/' :: (photo_title ++ ['.', 'j', 'p', 'g'])
      match url with
      | none => ⟨[prog], [], some 1⟩
      | some u =>
        if u.isEmpty then ⟨[prog], [], some 1⟩
        else
          match fetch u with
          | .error _ => ⟨[prog], [], some 1⟩
          | .ok bytes =>
            let o := download_photos_aux fmt fetch output_path offset (i + 1) rest
            ⟨prog :: o.progress, ⟨full_path, bytes⟩ :: o.files, o.exit⟩

/-- Model of `download_photos(photos, output_path, offset)`. -/
def download_photos (fmt : Int → List Char)
    (fetch : List Char → Except FetchErr (List UInt8))
    (output_path : List Char) (photos : List Photo) (offset : Nat) : DlOutcome :=
  download_photos_aux fmt fetch output_path offset 0 photos

/-! ## Remote queries, paging and download_album (lines 55-94, 139-164) -/

/-- The `album_id` parameter: a numeric album id or a reserved string
token ("wall", "profile", "saved") for a system pseudo-album. -/
inductive AlbumKey
  | num (n : Int)
  | tok (s : List Char)
deriving DecidableEq

/-- One `connection.method` call of the photo-listing kind: `tagged`
selects `photos.getUserPhotos` (keyed by user only) over `photos.get`
(keyed by owner and album); `count` and `off` are `none` when the Python
call omits them (the sizing probe in `get_album_size`). -/
structure PageQuery where
  tagged : Bool
  owner : Int
  album : Option AlbumKey
  count : Option Nat
  off : Option Nat
deriving DecidableEq

/-- Build the parameter record exactly as the two branches of the source
do: the tagged query carries no album id. -/
def mkPageQuery (tg : Bool) (owner : Int) (key : AlbumKey) (cnt off : Option Nat) : PageQuery :=
  if tg then ⟨true, owner, none, cnt, off⟩ else ⟨false, owner, some key, cnt, off⟩

/-- A remote error reported by the VK API (`vk_api.exceptions.ApiError`). -/
inductive ApiErr | api
deriving DecidableEq

/-- A decoded photo-listing response: the total `count` and the `items`. -/
structure ApiResp where
  count : Nat
  items : List Photo
deriving DecidableEq

/-- The authenticated Session collaborator: one generic invoke operation. -/
def Conn : Type := PageQuery → Except ApiErr ApiResp

/-- Model of `get_album_size`: a zero-parameter probe (no count, no
offset) whose `count` field is returned. -/
def get_album_size (conn : Conn) (owner : Int) (key : AlbumKey) (tg : Bool) : Except ApiErr Nat :=
  (conn (mkPageQuery tg owner key none none)).map (fun r => r.count)

/-- Status of one album-level run: completed, aborted by an ApiError
raised by a page query (propagates to the calling try/except), or the
whole process exited via `sys.exit`. -/
inductive PageStatus
  | ok
  | apiErr
  | exited (c : Nat)
deriving DecidableEq

/-- Observable outcome of `download_album`: the page queries issued, the
progress numbers printed, the files written, and the final status. -/
structure AlbumRun where
  queries : List PageQuery
  progress : List Nat
  files : List FileRec
  status : PageStatus
deriving DecidableEq

/-- The paging loop of `download_album`: `rem` iterations remain, `i` is
the current zero-based page index.  Each iteration issues one query with
`count = MAX_PHOTO_NUM` and `offset = i * MAX_PHOTO_NUM`, then feeds the
items to `download_photos`.  An ApiError or a `sys.exit` stops the loop. -/
def pagesLoop (conn : Conn) (fmt : Int → List Char)
    (fetch : List Char → Except FetchErr (List UInt8))
    (output_dir : List Char) (owner : Int) (key : AlbumKey) (tg : Bool) :
    Nat → Nat → AlbumRun
  | _, 0 => ⟨[], [], [], .ok⟩
  | i, rem + 1 =>
    let q := mkPageQuery tg owner key (some MAX_PHOTO_NUM) (some (i * MAX_PHOTO_NUM))
    match conn q with
    | .error _ => ⟨[q], [], [], .apiErr⟩
    | .ok resp =>
      let o := download_photos fmt fetch output_dir resp.items i
      match o.exit with
      | some c => ⟨[q], o.progress, o.files, .exited c⟩
      | none =>
        let r := pagesLoop conn fmt fetch output_dir owner key tg (i + 1) rem
        ⟨q :: r.queries, o.progress ++ r.progress, o.files ++ r.files, r.status⟩

/-- Model of `download_album`: sanitize the title into a directory name
(directory creation itself is an idempotent filesystem side effect with
no observable data), then run `range(album_size // MAX_PHOTO_NUM + 1)`
page fetches. -/
def download_album (conn : Conn) (fmt : Int → List Char)
    (fetch : List Char → Except FetchErr (List UInt8))
    (output_path : List Char) (owner : Int) (album_title : List Char)
    (album_size : Nat) (key : AlbumKey) (tg : Bool) : AlbumRun :=
  let album_dir := del_restricted_symbols album_title
  let output_dir := output_path ++ '/' :: album_dir
  pagesLoop conn fmt fetch output_dir owner key tg 0 (album_size / MAX_PHOTO_NUM + 1)

/-! ## Argument handling (arg_handler, lines 217-252) -/

/-- The three page types accepted on the command line. -/
inductive PageType
  | album
  | user
  | group
deriving DecidableEq

/-- The `argparse.Namespace` fields consumed by `arg_handler`. -/
structure ArgsNS where
  username : List Char
  password : List Char
  path : List Char
  page_type : PageType
  link : List Char
  main : Bool
  system_all : Bool
  system_wall : Bool
  system_profile : Bool
  system_saved : Bool
  tagged : Bool
deriving DecidableEq

/-- The parameter dictionary returned by `arg_handler` (note that it has
no `system_all` entry: that flag is folded into the three system flags). -/
structure Params where
  username : List Char
  password : List Char
  output_dir : List Char
  page_type : PageType
  link : List Char
  main : Bool
  system_wall : Bool
  system_profile : Bool
  system_saved : Bool
  tagged : Bool
deriving DecidableEq

/-- Model of `arg_handler`: copy the namespace into the dictionary;
`--system_all` turns on the three system flags; if no selection flag at
all was given, turn on every selection flag. -/
def arg_handler (args : ArgsNS) : Params :=
  let p1 : Params :=
    ⟨args.username, args.password, args.path, args.page_type, args.link,
      args.main, args.system_wall, args.system_profile, args.system_saved, args.tagged⟩
  let p2 : Params :=
    if args.system_all then
      ⟨p1.username, p1.password, p1.output_dir, p1.page_type, p1.link,
        p1.main, true, true, true, p1.tagged⟩
    else p1
  let p3 : Params :=
    if !(args.main || args.system_all || args.system_profile
        || args.system_saved || args.system_wall || args.tagged) then
      ⟨p2.username, p2.password, p2.output_dir, p2.page_type, p2.link,
        true, true, true, true, true⟩
    else p2
  p3

/-! ## link_parse (lines 255-274) -/

/-- Failure of `link_parse` on a malformed link.  In the source this is
an `IndexError` (missing "album" token or missing underscore part) or a
`ValueError` from `int` (non-numeric part); both abort the run through
the top-level generic handler, and the specification groups them as
ParseError. -/
inductive ParseErr | parseError
deriving DecidableEq

/-- The separator characters of the "album" token after its head. -/
def albumTokTail : List Char := ['l', 'b', 'u', 'm']

/-- The full "album" token. -/
def albumTok : List Char := 'a' :: albumTokTail

/-- Model of `link_parse`: take the trailing path segment
(`link.split("/")[-1]`); for the album page type, split it on the string
"album", take element 1 (IndexError when "album" does not occur), split
that on "_", and parse elements 0 and 1 as integers; for user and group
pages, return the segment verbatim. -/
def link_parse (link : List Char) (page_type : PageType) :
    Except ParseErr ((Int × Int) ⊕ List Char) :=
  let link_end := (splitOnChar '/' link).getLastD []
  match page_type with
  | .album =>
    match (splitStr 'a' albumTokTail link_end)[1]? with
    | none => .error .parseError
    | some chunk =>
      let ids := splitOnChar '_' chunk
      match ids[1]? with
      | none => .error .parseError
      | some second =>
        match pyInt (ids.headD []), pyInt second with
        | some a, some b => .ok (.inl (a, b))
        | _, _ => .error .parseError
  | _ => .ok (.inr link_end)

/-! ## The __main__ orchestration for user and group pages (lines 365-454) -/

/-- One album entry of the `photos.getAlbums` listing. -/
structure AlbumInfo where
  title : List Char
  size : Nat
  id : Int
deriving DecidableEq

/-- Observable contribution of one selection block: titles of albums
fully downloaded, report labels printed by the ApiError handlers, files
written, and `some c` when the block exited the process. -/
structure BlockOut where
  titles : List (List Char)
  reports : List (List Char)
  files : List FileRec
  exitc : Option Nat
deriving DecidableEq

/-- The printed label of the `--main` ApiError handler. -/
def mainLabel : List Char := "(--main) album".data

/-- The printed label of the `--tagged` ApiError handler. -/
def taggedLabel : List Char := "(--tagged) album".data

/-- The printed label of the `--system_wall` ApiError handler. -/
def wallLabel : List Char := "(--system_wall) album".data

/-- The printed label of the `--system_profile` ApiError handler. -/
def profileLabel : List Char := "(--system_profile) album".data

/-- The printed label of the `--system_saved` ApiError handler. -/
def savedLabel : List Char := "(--system_saved) album".data

/-- Display title of the tagged pseudo-album. -/
def taggedTitle : List Char := "Photos the user is tagged on".data

/-- Display title of the wall pseudo-album. -/
def wallTitle : List Char := "Photos from the wall".data

/-- Display title of the profile pseudo-album. -/
def profileTitle : List Char := "Profile photos".data

/-- Display title of the saved pseudo-album. -/
def savedTitle : List Char := "Saved photos".data

/-- The `for album in albums["items"]` loop inside the single `--main`
try block: each custom album is downloaded with the size taken from the
listing; the first ApiError or process exit stops the whole loop. -/
def processCustoms (conn : Conn) (fmt : Int → List Char)
    (fetch : List Char → Except FetchErr (List UInt8))
    (path : List Char) (owner : Int) :
    List AlbumInfo → List (List Char) × List FileRec × PageStatus
  | [] => ([], [], .ok)
  | a :: rest =>
    let r := download_album conn fmt fetch path owner a.title a.size (.num a.id) false
    match r.status with
    | .ok =>
      let res := processCustoms conn fmt fetch path owner rest
      (a.title :: res.1, r.files ++ res.2.1, res.2.2)
    | .apiErr => ([], r.files, .apiErr)
    | .exited c => ([], r.files, .exited c)

/-- The `--main` block: fetch the album listing, then download each
custom album; one try/except around the whole loop prints the
`(--main) album` label on any ApiError. -/
def mainBlock (conn : Conn) (fmt : Int → List Char)
    (fetch : List Char → Except FetchErr (List UInt8))
    (path : List Char) (owner : Int)
    (getAlbums : Except ApiErr (List AlbumInfo)) (params : Params) : BlockOut :=
  if params.main then
    match getAlbums with
    | .error _ => ⟨[], [mainLabel], [], none⟩
    | .ok albums =>
      match processCustoms conn fmt fetch path owner albums with
      | (ts, fs, .ok) => ⟨ts, [], fs, none⟩
      | (ts, fs, .apiErr) => ⟨ts, [mainLabel], fs, none⟩
      | (ts, fs, .exited c) => ⟨ts, [], fs, some c⟩
  else ⟨[], [], [], none⟩

/-- One of the four single-album blocks (tagged, wall, profile, saved):
probe the album size, download the album, and catch ApiError with the
block label.  A process exit propagates. -/
def stdBlock (conn : Conn) (fmt : Int → List Char)
    (fetch : List Char → Except FetchErr (List UInt8))
    (path : List Char) (owner : Int) (enabled : Bool)
    (title label : List Char) (key : AlbumKey) (tg : Bool) : BlockOut :=
  if enabled then
    match get_album_size conn owner key tg with
    | .error _ => ⟨[], [label], [], none⟩
    | .ok n =>
      let r := download_album conn fmt fetch path owner title n key tg
      match r.status with
      | .ok => ⟨[title], [], r.files, none⟩
      | .apiErr => ⟨[], [label], r.files, none⟩
      | .exited c => ⟨[], [], r.files, some c⟩
  else ⟨[], [], [], none⟩

/-- Sequential composition of the selection blocks: a process exit in one
block prevents every later block from running. -/
def seqBlocks : List BlockOut → BlockOut
  | [] => ⟨[], [], [], none⟩
  | b :: rest =>
    match b.exitc with
    | some c => ⟨b.titles, b.reports, b.files, some c⟩
    | none =>
      let r := seqBlocks rest
      ⟨b.titles ++ r.titles, b.reports ++ r.reports, b.files ++ r.files, r.exitc⟩

/-- Final observable result of the user/group part of `__main__`. -/
structure MainRes where
  processed : List (List Char)
  reports : List (List Char)
  files : List FileRec
  exit : Nat
deriving DecidableEq

/-- Model of the user/group orchestration of `__main__` after owner
resolution: the `--main` block, then tagged (user pages only), wall,
profile and saved, in source order.  The process exit code is 0 unless
some block called `sys.exit`. -/
def mainRun (conn : Conn) (fmt : Int → List Char)
    (fetch : List Char → Except FetchErr (List UInt8))
    (getAlbums : Except ApiErr (List AlbumInfo)) (path : List Char)
    (params : Params) (isUser : Bool) (owner : Int) : MainRes :=
  let b := seqBlocks
    [mainBlock conn fmt fetch path owner getAlbums params,
     stdBlock conn fmt fetch path owner (isUser && params.tagged)
       taggedTitle taggedLabel (.num 0) true,
     stdBlock conn fmt fetch path owner params.system_wall
       wallTitle wallLabel (.tok "wall".data) false,
     stdBlock conn fmt fetch path owner params.system_profile
       profileTitle profileLabel (.tok "profile".data) false,
     stdBlock conn fmt fetch path owner params.system_saved
       savedTitle savedLabel (.tok "saved".data) false]
  ⟨b.titles, b.reports, b.files, b.exitc.getD 0⟩

/-! ## Spec-side definitions used to state claims -/

/-- The ceiling of `n / c`, as the specification words it (for `c > 0`). -/
def ceilNat (n c : Nat) : Nat := (n + c - 1) / c

/-- Modelled from the spec: the trailing path segment matches the pattern
`album<ownerId>_<albumId>` with both parts numeric (non-empty digit
sequences). -/
def specAlbumSeg (seg : List Char) : Prop :=
  ∃ s1 s2 : List Char,
    seg = albumTok ++ s1 ++ '_' :: s2 ∧ s1 ≠ [] ∧ s2 ≠ [] ∧
      (∀ c ∈ s1, isAsciiDigit c = true) ∧ (∀ c ∈ s2, isAsciiDigit c = true)

/-- Trivial connection oracle: every query succeeds with an empty page. -/
def trivConn : Conn := fun _ => .ok ⟨0, []⟩

/-- Trivial timestamp formatter used in concrete evaluations. -/
def fmt0 : Int → List Char := fun _ => []

/-- Trivial byte fetcher used in concrete evaluations: always succeeds. -/
def fetch0 : List Char → Except FetchErr (List UInt8) := fun _ => .ok []

/-- Connection oracle that raises ApiError exactly on queries addressing
a numeric album id (custom albums) and succeeds with an empty page
otherwise; used to exercise the error-recovery paths. -/
def numFailConn : Conn := fun q =>
  match q.album with
  | some (.num _) => .error .api
  | _ => .ok ⟨0, []⟩

/-- A parameter set with every selection flag on. -/
def paramsAll : Params := ⟨[], [], [], .user, [], true, true, true, true, true⟩

/-- An album listing with one custom album, used in concrete evaluations. -/
def listingA : Except ApiErr (List AlbumInfo) := .ok [⟨['A'], 0, 7⟩]

/-- Connection oracle answering every query with a one-photo page whose
photo has a w variant with url "u". -/
def onePhotoConn : Conn := fun _ => .ok ⟨1, [⟨1, 0, [(['w'], ['u'])]⟩]⟩

/-- Byte fetcher that always fails with a network error. -/
def failFetch : List Char → Except FetchErr (List UInt8) := fun _ => .error .network

/-! ## Helper lemmas about dropWhile-based trimming -/

theorem dropWhile_self {α : Type} (p : α → Bool) (l : List α) :
    List.dropWhile p (List.dropWhile p l) = List.dropWhile p l := by
  induction l with
  | nil => rfl
  | cons c t ih =>
    by_cases h : p c
    · simp [List.dropWhile_cons, h, ih]
    · simp [List.dropWhile_cons, h]

theorem head_dropWhile_false {α : Type} (p : α → Bool) :
    ∀ (l : List α) (c : α), (List.dropWhile p l).head? = some c → p c = false := by
  intro l
  induction l with
  | nil => intro c h; simp at h
  | cons a t ih =>
    intro c h
    by_cases ha : p a
    · rw [List.dropWhile_cons, if_pos ha] at h
      exact ih c h
    · rw [List.dropWhile_cons, if_neg ha] at h
      simp at h
      rw [← h]
      exact eq_false_of_ne_true ha

theorem exists_append_dropWhile {α : Type} (p : α → Bool) (l : List α) :
    ∃ t, t ++ List.dropWhile p l = l := by
  induction l with
  | nil => exact ⟨[], rfl⟩
  | cons a t ih =>
    by_cases h : p a
    · obtain ⟨u, hu⟩ := ih
      exact ⟨a :: u, by simp [List.dropWhile_cons, h, hu]⟩
    · exact ⟨[], by simp [List.dropWhile_cons, h]⟩

theorem trimRight_trimRight (l : List Char) : trimRight (trimRight l) = trimRight l := by
  simp [trimRight, dropWhile_self]

theorem trimLeft_trimRight_trimLeft (l : List Char) :
    trimLeft (trimRight (trimLeft l)) = trimRight (trimLeft l) := by
  rcases h : trimRight (trimLeft l) with _ | ⟨c, rest⟩
  · rfl
  · obtain ⟨u, hu⟩ := exists_append_dropWhile isPySpace (trimLeft l).reverse
    have hm : trimRight (trimLeft l) ++ u.reverse = trimLeft l := by
      have := congrArg List.reverse hu
      simpa [trimRight] using this
    rw [h] at hm
    have hhead : (trimLeft l).head? = some c := by
      rw [← hm]; rfl
    have hpc : isPySpace c = false := head_dropWhile_false isPySpace l c hhead
    simp [trimLeft, List.dropWhile_cons, hpc]

theorem stripChars_idem (l : List Char) : stripChars (stripChars l) = stripChars l := by
  show trimRight (trimLeft (trimRight (trimLeft l))) = trimRight (trimLeft l)
  rw [trimLeft_trimRight_trimLeft, trimRight_trimRight]

theorem stripChars_map (f : Char → Char) (hp : ∀ c, isPySpace (f c) = isPySpace c)
    (l : List Char) : stripChars (l.map f) = (stripChars l).map f := by
  have hdw : ∀ m : List Char,
      List.dropWhile isPySpace (m.map f) = (List.dropWhile isPySpace m).map f := by
    intro m
    induction m with
    | nil => rfl
    | cons a t ih =>
      by_cases h : isPySpace a
      · have h2 : isPySpace (f a) = true := by rw [hp]; exact h
        simp [List.dropWhile_cons, h, h2, ih]
      · have h2 : isPySpace (f a) = false := by rw [hp]; exact eq_false_of_ne_true h
        simp [List.dropWhile_cons, h, h2]
  show trimRight (trimLeft (l.map f)) = (trimRight (trimLeft l)).map f
  rw [trimLeft, hdw, trimRight, trimRight, ← List.map_reverse, hdw, List.map_reverse]
  rw [trimLeft]

/-! ## Characterization of the sanitizer -/

theorem delWork_eq (cs : List Char) : ∀ acc : List Char,
    delWork acc cs = acc.map (fun c => if c ∈ restricted ∧ c ∈ cs then '-' else c) := by
  induction cs with
  | nil =>
    intro acc
    show acc = _
    simp
  | cons s cs ih =>
    intro acc
    show delWork (if s ∈ restricted then replaceChar acc s else acc) cs = _
    by_cases hs : s ∈ restricted
    · rw [if_pos hs, ih, replaceChar, List.map_map]
      congr 1
      funext c
      by_cases hc : c = s
      · subst hc
        simp only [Function.comp, if_pos rfl]
        have h1 : ('-' ∈ restricted) = False := by simp [restricted]
        simp [h1, hs]
      · simp only [Function.comp, if_neg hc]
        have : (c ∈ s :: cs) = (c = s ∨ c ∈ cs) := by simp
        simp [this, hc]
    · rw [if_neg hs, ih]
      congr 1
      funext c
      by_cases hc : c = s
      · subst hc; simp [hs]
      · have : (c ∈ s :: cs) = (c = s ∨ c ∈ cs) := by simp
        simp [this, hc]

theorem del_eq_map (t : List Char) :
    del_restricted_symbols t =
      (stripChars t).map (fun c => if c ∈ restricted then '-' else c) := by
  rw [del_restricted_symbols, delWork_eq]
  apply List.map_congr_left
  intro c hc
  by_cases h : c ∈ restricted
  · simp [h, hc]
  · simp [h]

theorem sanitize_char_not_space (c : Char) :
    isPySpace (if c ∈ restricted then '-' else c) = isPySpace c := by
  by_cases h : c ∈ restricted
  · rw [if_pos h]
    have h2 : isPySpace c = false := by fin_cases h <;> decide
    rw [h2]; decide
  · rw [if_neg h]

theorem sanitize_char_idem (c : Char) :
    (if (if c ∈ restricted then '-' else c) ∈ restricted then '-'
      else if c ∈ restricted then '-' else c) = if c ∈ restricted then '-' else c := by
  by_cases h : c ∈ restricted
  · have hd : ('-' : Char) ∉ restricted := by decide
    rw [if_pos h, if_neg hd]
  · simp only [if_neg h]

/-- C7: the title sanitizer is idempotent: applying
`del_restricted_symbols` to any of its outputs returns that output
unchanged; in particular del_restricted_symbols("A:B/C") = "A-B-C". -/
theorem c7_sanitizer_idempotent (t : List Char) :
    del_restricted_symbols (del_restricted_symbols t) = del_restricted_symbols t ∧
      del_restricted_symbols "A:B/C".data = "A-B-C".data := by
  constructor
  · rw [del_eq_map t, del_eq_map, stripChars_map _ sanitize_char_not_space, stripChars_idem,
      List.map_map]
    congr 1
    funext c
    exact sanitize_char_idem c
  · rfl

/-- C8 counterexample: on the album title " " (whitespace only) the
sanitizer returns the empty string, so the output of
`del_restricted_symbols` is not always non-empty as the claim states. -/
theorem c8_counterexample : del_restricted_symbols " ".data = [] := rfl

/-- C8 (amended): `del_restricted_symbols` first trims the surrounding
whitespace, then replaces every occurrence of each restricted character
with a hyphen; the output is non-empty whenever the trimmed title is
non-empty (a title that is empty or whitespace-only yields the empty
string). -/
theorem c8_trim_then_replace (t : List Char) :
    del_restricted_symbols t =
      (stripChars t).map (fun c => if c ∈ restricted then '-' else c) ∧
      (stripChars t ≠ [] → del_restricted_symbols t ≠ []) := by
  refine ⟨del_eq_map t, fun h => ?_⟩
  rw [del_eq_map t]
  intro h2
  exact h (List.map_eq_nil_iff.mp h2)

/-- C8 witness: a concrete title with whitespace and a restricted
character, on which the amended nonemptiness conclusion applies. -/
theorem c8_trim_then_replace_witness :
    stripChars "  a.b ".data ≠ [] ∧ del_restricted_symbols "  a.b ".data ≠ [] :=
  ⟨by decide, (c8_trim_then_replace "  a.b ".data).2 (by decide)⟩

/-- C6: supplying no selection flags yields exactly the same parameter
dictionary as setting every selection flag to true, and in both cases
custom albums, the three system pseudo-albums and tagged are selected. -/
theorem c6_no_flags_selects_all (u pw o l : List Char) (pt : PageType) :
    arg_handler ⟨u, pw, o, pt, l, false, false, false, false, false, false⟩ =
        arg_handler ⟨u, pw, o, pt, l, true, true, true, true, true, true⟩ ∧
      arg_handler ⟨u, pw, o, pt, l, false, false, false, false, false, false⟩ =
        ⟨u, pw, o, pt, l, true, true, true, true, true⟩ :=
  ⟨rfl, rfl⟩

/-! ## Variant selection lemmas -/

theorem selectUrl_none (links : List Char → Option (List Char)) :
    ∀ ts : List (List Char), (∀ t ∈ ts, links t = none) → selectUrl links ts = none := by
  intro ts
  induction ts with
  | nil => intro _; rfl
  | cons t ts ih =>
    intro h
    cases ts with
    | nil =>
      show links t = none
      exact h t (by simp)
    | cons t2 ts2 =>
      show (if truthyS (links t) then links t else selectUrl links (t2 :: ts2)) = none
      rw [h t (by simp)]
      show selectUrl links (t2 :: ts2) = none
      exact ih (fun x hx => h x (by simp [hx]))

theorem selectUrl_first_truthy (links : List Char → Option (List Char)) :
    ∀ (pre : List (List Char)) (t : List Char) (post : List (List Char)),
      (∀ x ∈ pre, truthyS (links x) = false) → truthyS (links t) = true →
      selectUrl links (pre ++ t :: post) = links t := by
  intro pre
  induction pre with
  | nil =>
    intro t post _ ht
    cases post with
    | nil => rfl
    | cons p ps =>
      show (if truthyS (links t) then links t else _) = links t
      rw [ht, if_pos rfl]
  | cons a pre ih =>
    intro t post h ht
    have ha : truthyS (links a) = false := h a (by simp)
    have htail : ∀ x ∈ pre, truthyS (links x) = false :=
      fun x hx => h x (List.mem_cons_of_mem a hx)
    cases pre with
    | nil =>
      show (if truthyS (links a) then links a else selectUrl links (t :: post)) = links t
      rw [ha]
      show selectUrl links ([] ++ t :: post) = links t
      exact ih t post (by simp) ht
    | cons b pre2 =>
      show (if truthyS (links a) then links a
        else selectUrl links (b :: pre2 ++ t :: post)) = links t
      rw [ha]
      show selectUrl links ((b :: pre2) ++ t :: post) = links t
      exact ih t post htail ht

theorem photoLinks_none (sizes : List (List Char × List Char)) (k : List Char)
    (h : ∀ p ∈ sizes, p.1 ≠ k) : photoLinks sizes k = none := by
  rw [photoLinks]
  have : sizes.reverse.find? (fun p => p.1 == k) = none := by
    rw [List.find?_eq_none]
    intro p hp
    simp only [beq_iff_eq]
    exact h p (List.mem_reverse.mp hp)
  rw [this]
  rfl

/-- C2 counterexample: for sizes with the tag w bound to the empty
string and z bound to "b", the first tag present in priority order is w,
whose associated url is "", but the selection loop returns "b": the
Python truthiness test skips a present tag whose url is falsy. -/
theorem c2_counterexample :
    selectUrl (photoLinks [(['w'], []), (['z'], ['b'])]) priority = some ['b'] ∧
      photoLinks [(['w'], ([] : List Char)), (['z'], ['b'])] ['w'] = some [] ∧
      some ['b'] ≠ some ([] : List Char) :=
  ⟨rfl, rfl, by decide⟩

/-- C2 (amended): variant selection returns the url associated with the
first tag, in the fixed priority order w, z, y, x, r, q, p, m, o, s,
whose lookup is truthy (present with a non-empty url); earlier tags that
are absent or bound to an empty url are passed over.  For records whose
urls are genuine non-empty urls this is exactly the first present tag. -/
theorem c2_first_present_variant (sizes : List (List Char × List Char))
    (pre : List (List Char)) (t : List Char) (post : List (List Char)) (u : List Char)
    (hp : priority = pre ++ t :: post)
    (hpre : ∀ x ∈ pre, truthyS (photoLinks sizes x) = false)
    (ht : photoLinks sizes t = some u) (hu : u ≠ []) :
    selectUrl (photoLinks sizes) priority = some u := by
  have htr : truthyS (photoLinks sizes t) = true := by
    rw [ht]
    have hne : u.isEmpty = false := by
      cases u with
      | nil => exact absurd rfl hu
      | cons _ _ => rfl
    show (!u.isEmpty) = true
    rw [hne]
    rfl
  rw [hp, selectUrl_first_truthy (photoLinks sizes) pre t post hpre htr, ht]

/-- C2 witness: the specification example sizes s ↦ "a", m ↦ "b",
w ↦ "c" select the url "c" of the tag w. -/
theorem c2_first_present_variant_witness :
    selectUrl (photoLinks [(['s'], ['a']), (['m'], ['b']), (['w'], ['c'])]) priority =
      some ['c'] :=
  c2_first_present_variant [(['s'], ['a']), (['m'], ['b']), (['w'], ['c'])]
    [] ['w'] [['z'], ['y'], ['x'], ['r'], ['q'], ['p'], ['m'], ['o'], ['s']] ['c']
    rfl (by simp) rfl (by decide)

/-- C5: a photo record with an empty size set is skipped by
`download_photos`: the 1-based progress counter is emitted for it, no
file is written for it, and no error is raised; processing continues
with the remaining photos. -/
theorem c5_empty_sizes_skipped (fmt : Int → List Char)
    (fetch : List Char → Except FetchErr (List UInt8)) (out : List Char)
    (off i : Nat) (ph : Photo) (rest : List Photo) (h : ph.sizes = []) :
    download_photos_aux fmt fetch out off i (ph :: rest) =
      ⟨(off * MAX_PHOTO_NUM + i + 1) ::
          (download_photos_aux fmt fetch out off (i + 1) rest).progress,
        (download_photos_aux fmt fetch out off (i + 1) rest).files,
        (download_photos_aux fmt fetch out off (i + 1) rest).exit⟩ := by
  simp [download_photos_aux, h]

/-- C5 witness: a single deleted photo yields progress [1], no file and
a normal return. -/
theorem c5_empty_sizes_skipped_witness :
    download_photos_aux fmt0 fetch0 [] 0 0 [⟨0, 0, []⟩] = ⟨[1], [], none⟩ :=
  c5_empty_sizes_skipped fmt0 fetch0 [] 0 0 ⟨0, 0, []⟩ [] rfl

/-- C10: a photo record whose sizes are non-empty but contain none of
the ten recognized tags is not skipped: the selection loop leaves the
url unset (None), and the subsequent fetch of that null url raises a
RequestException (MissingSchema), taking the fatal exit(1) path. -/
theorem c10_unrecognized_tags_fatal (fmt : Int → List Char)
    (fetch : List Char → Except FetchErr (List UInt8)) (out : List Char)
    (off i : Nat) (ph : Photo) (rest : List Photo)
    (h1 : ph.sizes ≠ []) (h2 : ∀ p ∈ ph.sizes, p.1 ∉ priority) :
    selectUrl (photoLinks ph.sizes) priority = none ∧
      download_photos_aux fmt fetch out off i (ph :: rest) =
        ⟨[off * MAX_PHOTO_NUM + i + 1], [], some 1⟩ := by
  have hsel : selectUrl (photoLinks ph.sizes) priority = none := by
    apply selectUrl_none
    intro t htmem
    apply photoLinks_none
    intro p hp hpk
    exact h2 p hp (hpk ▸ htmem)
  refine ⟨hsel, ?_⟩
  have hne : ph.sizes.isEmpty = false := by
    cases hs : ph.sizes with
    | nil => exact absurd hs h1
    | cons a b => rfl
  simp [download_photos_aux, hne, hsel]

/-- C10 witness: a record with the single unrecognized tag "k" aborts
the run with exit code 1 instead of being skipped. -/
theorem c10_unrecognized_tags_fatal_witness :
    selectUrl (photoLinks [(['k'], ['u'])]) priority = none ∧
      download_photos_aux fmt0 fetch0 [] 0 0 [⟨1, 0, [(['k'], ['u'])]⟩] =
        ⟨[1], [], some 1⟩ :=
  c10_unrecognized_tags_fatal fmt0 fetch0 [] 0 0 ⟨1, 0, [(['k'], ['u'])]⟩ []
    (by decide) (by decide)

/-! ## Paging lemmas and C1 -/

theorem pagesLoop_queries (conn : Conn) (fmt : Int → List Char)
    (fetch : List Char → Except FetchErr (List UInt8)) (dir : List Char)
    (owner : Int) (key : AlbumKey) (tg : Bool)
    (h1 : ∀ q, ∃ resp, conn q = .ok resp)
    (h2 : ∀ q resp i, conn q = .ok resp →
      (download_photos fmt fetch dir resp.items i).exit = none) :
    ∀ rem i, (pagesLoop conn fmt fetch dir owner key tg i rem).queries =
      (List.range rem).map
        (fun j => mkPageQuery tg owner key (some MAX_PHOTO_NUM)
          (some ((i + j) * MAX_PHOTO_NUM))) := by
  intro rem
  induction rem with
  | zero => intro i; rfl
  | succ rem ih =>
    intro i
    obtain ⟨resp, hresp⟩ :=
      h1 (mkPageQuery tg owner key (some MAX_PHOTO_NUM) (some (i * MAX_PHOTO_NUM)))
    have he := h2 _ resp i hresp
    simp only [pagesLoop, hresp, he, ih (i + 1)]
    rw [List.range_succ_eq_map, List.map_cons, List.map_map, Nat.add_zero]
    have htail :
        (List.range rem).map
          (fun j => mkPageQuery tg owner key (some MAX_PHOTO_NUM)
            (some ((i + 1 + j) * MAX_PHOTO_NUM))) =
        (List.range rem).map
          ((fun j => mkPageQuery tg owner key (some MAX_PHOTO_NUM)
            (some ((i + j) * MAX_PHOTO_NUM))) ∘ Nat.succ) := by
      apply List.map_congr_left
      intro j _
      simp only [Function.comp]
      exact congrArg
        (fun n => mkPageQuery tg owner key (some MAX_PHOTO_NUM) (some (n * MAX_PHOTO_NUM)))
        (by omega)
    rw [htail, Nat.add_zero]

/-- C1 counterexample: for an album of exactly 1000 photos (one page
ceiling), `download_album` issues 2 page fetches while ceil(1000/1000)
is 1: the loop runs `album_size // 1000 + 1` times, one extra trailing
fetch when the ceiling divides the album size. -/
theorem c1_counterexample :
    (download_album trivConn fmt0 fetch0 [] 0 [] 1000 (.num 5) false).queries.length = 2 ∧
      ceilNat 1000 MAX_PHOTO_NUM = 1 ∧
      (download_album trivConn fmt0 fetch0 [] 0 [] 1000 (.num 5) false).queries.length ≠
        ceilNat 1000 MAX_PHOTO_NUM :=
  ⟨rfl, rfl, by decide⟩

/-- C1 (amended): provided no page query fails and no photo aborts the
process, `download_album` on an album of size N issues exactly
N / 1000 + 1 page fetches, with offsets 0, 1000, 2000, ...; this count
equals ceil(N/1000) whenever 1000 does not divide N, and is one more
than ceil(N/1000) (an extra empty trailing page) when it does,
including N = 0. -/
theorem c1_page_fetches (conn : Conn) (fmt : Int → List Char)
    (fetch : List Char → Except FetchErr (List UInt8)) (path : List Char)
    (owner : Int) (title : List Char) (N : Nat) (key : AlbumKey) (tg : Bool)
    (h1 : ∀ q, ∃ resp, conn q = .ok resp)
    (h2 : ∀ q resp i, conn q = .ok resp →
      (download_photos fmt fetch (path ++ '/' :: del_restricted_symbols title)
        resp.items i).exit = none) :
    (download_album conn fmt fetch path owner title N key tg).queries =
      (List.range (N / MAX_PHOTO_NUM + 1)).map
        (fun j => mkPageQuery tg owner key (some MAX_PHOTO_NUM)
          (some (j * MAX_PHOTO_NUM))) ∧
      (N % MAX_PHOTO_NUM ≠ 0 → N / MAX_PHOTO_NUM + 1 = ceilNat N MAX_PHOTO_NUM) ∧
      (N % MAX_PHOTO_NUM = 0 → N / MAX_PHOTO_NUM + 1 = ceilNat N MAX_PHOTO_NUM + 1) := by
  refine ⟨?_, ?_, ?_⟩
  · have h := pagesLoop_queries conn fmt fetch
      (path ++ '/' :: del_restricted_symbols title) owner key tg h1 h2
      (N / MAX_PHOTO_NUM + 1) 0
    rw [download_album]
    rw [h]
    apply List.map_congr_left
    intro j _
    rw [Nat.zero_add]
  · intro h
    show N / MAX_PHOTO_NUM + 1 = (N + MAX_PHOTO_NUM - 1) / MAX_PHOTO_NUM
    rw [MAX_PHOTO_NUM] at *
    omega
  · intro h
    show N / MAX_PHOTO_NUM + 1 = (N + MAX_PHOTO_NUM - 1) / MAX_PHOTO_NUM + 1
    rw [MAX_PHOTO_NUM] at *
    omega

/-- C1 witness: an album of 1500 photos yields exactly the two page
fetches with offsets 0 and 1000, matching ceil(1500/1000) = 2. -/
theorem c1_page_fetches_witness :
    (download_album trivConn fmt0 fetch0 [] 0 [] 1500 (.num 5) false).queries =
      (List.range (1500 / MAX_PHOTO_NUM + 1)).map
        (fun j => mkPageQuery false 0 (.num 5) (some MAX_PHOTO_NUM)
          (some (j * MAX_PHOTO_NUM))) ∧
      (1500 % MAX_PHOTO_NUM ≠ 0 → 1500 / MAX_PHOTO_NUM + 1 = ceilNat 1500 MAX_PHOTO_NUM) ∧
      (1500 % MAX_PHOTO_NUM = 0 →
        1500 / MAX_PHOTO_NUM + 1 = ceilNat 1500 MAX_PHOTO_NUM + 1) :=
  c1_page_fetches trivConn fmt0 fetch0 [] 0 [] 1500 (.num 5) false
    (fun _ => ⟨⟨0, []⟩, rfl⟩)
    (fun q resp i h => by
      injection h with h2
      subst h2
      rfl)

/-! ## C4: a photo fetch failure is fatal to the whole run -/

/-- C4: a network failure while fetching the bytes of a photo aborts the
whole run immediately with exit code 1: nothing is recorded as
processed, no file is written, no report label is printed, and no later
album or block runs (unlike an album-level ApiError, which is caught). -/
theorem c4_fetch_error_fatal (conn : Conn) (fmt : Int → List Char)
    (fetch : List Char → Except FetchErr (List UInt8))
    (getAlbums : Except ApiErr (List AlbumInfo)) (path : List Char)
    (params : Params) (isUser : Bool) (owner : Int) (a : AlbumInfo)
    (resp : ApiResp) (ph : Photo) (rest : List Photo) (u : List Char) (e : FetchErr)
    (hm : params.main = true)
    (hg : getAlbums = .ok [a])
    (hq : conn (mkPageQuery false owner (.num a.id) (some MAX_PHOTO_NUM) (some 0)) =
      .ok resp)
    (hitems : resp.items = ph :: rest)
    (hsel : selectUrl (photoLinks ph.sizes) priority = some u)
    (hu : u ≠ []) (hf : fetch u = .error e) :
    mainRun conn fmt fetch getAlbums path params isUser owner = ⟨[], [], [], 1⟩ := by
  have hsz : ph.sizes.isEmpty = false := by
    cases hs : ph.sizes with
    | nil =>
      rw [hs] at hsel
      have : selectUrl (photoLinks []) priority = none := rfl
      rw [this] at hsel
      exact absurd hsel (by simp)
    | cons _ _ => rfl
  have hune : u.isEmpty = false := by
    cases u with
    | nil => exact absurd rfl hu
    | cons _ _ => rfl
  have hdp : ∀ dir : List Char, download_photos fmt fetch dir resp.items 0 =
      ⟨[1], [], some 1⟩ := by
    intro dir
    rw [hitems, download_photos]
    simp [download_photos_aux, hsz, hsel, hune, hf]
  rw [mainRun, hg]
  simp only [mainBlock, hm, if_pos, processCustoms, download_album, pagesLoop]
  rw [show (0 : Nat) * MAX_PHOTO_NUM = 0 from rfl] at *
  simp only [hq, hdp]
  rfl

/-- C4 witness: one album whose first photo has a w variant, with a
fetcher that always fails, exits the run with code 1. -/
theorem c4_fetch_error_fatal_witness :
    mainRun onePhotoConn fmt0 failFetch listingA [] paramsAll true 5 = ⟨[], [], [], 1⟩ :=
  c4_fetch_error_fatal onePhotoConn fmt0 failFetch listingA [] paramsAll true 5
    ⟨['A'], 0, 7⟩ ⟨1, [⟨1, 0, [(['w'], ['u'])]⟩]⟩ ⟨1, 0, [(['w'], ['u'])]⟩ [] ['u'] .network
    rfl rfl rfl rfl rfl (by decide) rfl

/-! ## Lemmas about splitting and integer parsing, for link_parse -/

theorem isPrefixOf_append_self : ∀ l t : List Char, l.isPrefixOf (l ++ t) = true := by
  intro l
  induction l with
  | nil => intro t; simp [List.isPrefixOf]
  | cons c cs ih => intro t; simp [List.isPrefixOf, ih]

theorem splitStrF_mono (c : Char) (cs : List Char) :
    ∀ (f1 : Nat) (l : List Char) (f2 : Nat), l.length ≤ f1 → l.length ≤ f2 →
      splitStrF c cs f1 l = splitStrF c cs f2 l := by
  intro f1
  induction f1 with
  | zero =>
    intro l f2 h1 _
    have : l = [] := List.eq_nil_of_length_eq_zero (Nat.le_zero.mp h1)
    subst this
    cases f2 <;> rfl
  | succ f1 ih =>
    intro l f2 h1 h2
    cases l with
    | nil => cases f2 <;> rfl
    | cons x xs =>
      cases f2 with
      | zero => simp at h2
      | succ f2 =>
        show (if (c :: cs).isPrefixOf (x :: xs) then
            [] :: splitStrF c cs f1 (xs.drop cs.length)
          else
            match splitStrF c cs f1 xs with
            | [] => [[x]]
            | h :: t => (x :: h) :: t) =
          (if (c :: cs).isPrefixOf (x :: xs) then
            [] :: splitStrF c cs f2 (xs.drop cs.length)
          else
            match splitStrF c cs f2 xs with
            | [] => [[x]]
            | h :: t => (x :: h) :: t)
        have hx1 : xs.length ≤ f1 := by simp at h1; omega
        have hx2 : xs.length ≤ f2 := by simp at h2; omega
        by_cases hp : (c :: cs).isPrefixOf (x :: xs)
        · rw [if_pos hp, if_pos hp]
          have hd1 : (xs.drop cs.length).length ≤ f1 := by
            rw [List.length_drop]; omega
          have hd2 : (xs.drop cs.length).length ≤ f2 := by
            rw [List.length_drop]; omega
          rw [ih (xs.drop cs.length) f2 hd1 hd2]
        · rw [if_neg hp, if_neg hp, ih xs f2 hx1 hx2]

theorem splitStr_token_head (c : Char) (cs rest : List Char) :
    splitStr c cs ((c :: cs) ++ rest) = [] :: splitStr c cs rest := by
  have hlen : ((c :: cs) ++ rest).length = (cs.length + rest.length) + 1 := by
    simp [List.length_append]
  rw [splitStr, hlen]
  show (if (c :: cs).isPrefixOf ((c :: cs) ++ rest) then
      [] :: splitStrF c cs (cs.length + rest.length) ((cs ++ rest).drop cs.length)
    else
      match splitStrF c cs (cs.length + rest.length) (cs ++ rest) with
      | [] => [[c]]
      | h :: t => (c :: h) :: t) = [] :: splitStr c cs rest
  rw [if_pos (isPrefixOf_append_self (c :: cs) rest), List.drop_left]
  rw [splitStr, splitStrF_mono c cs (cs.length + rest.length) rest rest.length
    (by omega) (by omega)]

theorem containsSeq_head (c : Char) (cs : List Char) :
    ∀ l : List Char, containsSeq (c :: cs) l = true → c ∈ l := by
  intro l
  induction l with
  | nil => intro h; exact absurd h (by simp [containsSeq, List.isEmpty])
  | cons x xs ih =>
    intro h
    rcases Bool.or_eq_true_iff.mp h with h | h
    · have : (c == x) = true := by
        have := h
        simp [List.isPrefixOf] at this
        exact beq_iff_eq.mpr this.1
      rw [beq_iff_eq] at this
      rw [this]
      exact List.mem_cons_self x xs
    · exact List.mem_cons_of_mem x (ih h)

theorem splitStrF_no_occur (c : Char) (cs : List Char) :
    ∀ (fuel : Nat) (l : List Char), l.length ≤ fuel →
      containsSeq (c :: cs) l = false → splitStrF c cs fuel l = [l] := by
  intro fuel
  induction fuel with
  | zero =>
    intro l h1 _
    have : l = [] := List.eq_nil_of_length_eq_zero (Nat.le_zero.mp h1)
    subst this
    rfl
  | succ fuel ih =>
    intro l h1 hc
    cases l with
    | nil => rfl
    | cons x xs =>
      have hsplit := Bool.or_eq_false_iff.mp hc
      show (if (c :: cs).isPrefixOf (x :: xs) then
          [] :: splitStrF c cs fuel (xs.drop cs.length)
        else
          match splitStrF c cs fuel xs with
          | [] => [[x]]
          | h :: t => (x :: h) :: t) = [x :: xs]
      rw [if_neg (by rw [hsplit.1]; exact Bool.false_ne_true)]
      rw [ih xs (by simp at h1; omega) hsplit.2]

theorem splitStr_no_occur (c : Char) (cs l : List Char)
    (h : containsSeq (c :: cs) l = false) : splitStr c cs l = [l] :=
  splitStrF_no_occur c cs l.length l (Nat.le_refl _) h

theorem splitOnChar_ne_nil (c : Char) : ∀ l : List Char, splitOnChar c l ≠ [] := by
  intro l
  cases l with
  | nil => simp [splitOnChar]
  | cons x xs =>
    show (match splitOnChar c xs with
      | [] => [[x]]
      | h :: t => if x = c then [] :: h :: t else (x :: h) :: t) ≠ []
    cases splitOnChar c xs with
    | nil => simp
    | cons h t =>
      by_cases hx : x = c <;> simp [hx]

theorem splitOnChar_no_occur (c : Char) :
    ∀ l : List Char, c ∉ l → splitOnChar c l = [l] := by
  intro l
  induction l with
  | nil => intro _; rfl
  | cons x xs ih =>
    intro h
    have hx : x ≠ c := fun e => h (e ▸ List.mem_cons_self x xs)
    have hxs : c ∉ xs := fun hc => h (List.mem_cons_of_mem x hc)
    show (match splitOnChar c xs with
      | [] => [[x]]
      | h :: t => if x = c then [] :: h :: t else (x :: h) :: t) = [x :: xs]
    rw [ih hxs]
    simp [hx]

theorem splitOnChar_append (c : Char) :
    ∀ a b : List Char, c ∉ a → splitOnChar c (a ++ c :: b) = a :: splitOnChar c b := by
  intro a
  induction a with
  | nil =>
    intro b _
    show (match splitOnChar c b with
      | [] => [[c]]
      | h :: t => if c = c then [] :: h :: t else (c :: h) :: t) = [] :: splitOnChar c b
    cases hb : splitOnChar c b with
    | nil => exact absurd hb (splitOnChar_ne_nil c b)
    | cons h t => simp
  | cons y a ih =>
    intro b hmem
    have hy : y ≠ c := fun e => hmem (e ▸ List.mem_cons_self y a)
    have ha : c ∉ a := fun hc => hmem (List.mem_cons_of_mem y hc)
    show (match splitOnChar c (a ++ c :: b) with
      | [] => [[y]]
      | h :: t => if y = c then [] :: h :: t else (y :: h) :: t) = (y :: a) :: splitOnChar c b
    rw [ih b ha]
    simp [hy]

theorem dropWhile_all_false {α : Type} (p : α → Bool) :
    ∀ l : List α, (∀ x ∈ l, p x = false) → List.dropWhile p l = l := by
  intro l
  induction l with
  | nil => intro _; rfl
  | cons x xs _ =>
    intro h
    rw [List.dropWhile_cons, if_neg]
    rw [h x (List.mem_cons_self x xs)]
    exact Bool.false_ne_true

theorem stripChars_of_no_space (l : List Char)
    (h : ∀ x ∈ l, isPySpace x = false) : stripChars l = l := by
  show trimRight (trimLeft l) = l
  rw [trimLeft, dropWhile_all_false isPySpace l h, trimRight,
    dropWhile_all_false isPySpace l.reverse (fun x hx => h x (List.mem_reverse.mp hx)),
    List.reverse_reverse]

theorem digit_not_space (c : Char) (h : isAsciiDigit c = true) : isPySpace c = false := by
  simp [isAsciiDigit] at h
  simp [isPySpace]
  omega

theorem pyInt_digits (l : List Char) (h1 : l ≠ [])
    (h2 : ∀ c ∈ l, isAsciiDigit c = true) : pyInt l = some ((digitsVal l : Nat) : Int) := by
  have hstrip : stripChars l = l :=
    stripChars_of_no_space l (fun c hc => digit_not_space c (h2 c hc))
  rcases l with _ | ⟨c, rest⟩
  · exact absurd rfl h1
  · have hc : isAsciiDigit c = true := h2 c (List.mem_cons_self c rest)
    have hb : 48 ≤ c.toNat ∧ c.toNat ≤ 57 := by simpa [isAsciiDigit] using hc
    have hplus : c ≠ '+' := by
      intro e
      have h43 : c.toNat = 43 := by rw [e]; rfl
      omega
    have hminus : c ≠ '-' := by
      intro e
      have h45 : c.toNat = 45 := by rw [e]; rfl
      omega
    have hfd : natFromDigits (c :: rest) = some (digitsVal (c :: rest)) := by
      rw [natFromDigits, if_pos]
      have hall : (c :: rest).all isAsciiDigit = true := List.all_eq_true.mpr h2
      rw [hall]
      rfl
    show (match stripChars (c :: rest) with
      | [] => none
      | c :: rest =>
        if c = '+' then (natFromDigits rest).map (fun n => (n : Int))
        else if c = '-' then (natFromDigits rest).map (fun n => -(n : Int))
        else (natFromDigits (c :: rest)).map (fun n => (n : Int))) = _
    rw [hstrip]
    show (if c = '+' then (natFromDigits rest).map (fun n => (n : Int))
      else if c = '-' then (natFromDigits rest).map (fun n => -(n : Int))
      else (natFromDigits (c :: rest)).map (fun n => (n : Int))) = _
    rw [if_neg hplus, if_neg hminus, hfd]
    rfl

/-! ## C9: link_parse for the album page type -/

/-- C9 counterexample: on the link https://vk.com/xalbum1_2 the trailing
path segment xalbum1_2 does not match the pattern album<ownerId>_<albumId>
(it has a leading x), yet link_parse succeeds and returns (1, 2): success
is not limited to well-formed album segments, so the "exactly when"
claim fails. -/
theorem c9_counterexample :
    link_parse "https://vk.com/xalbum1_2".data .album = .ok (.inl (1, 2)) ∧
      ¬ specAlbumSeg ((splitOnChar '/' "https://vk.com/xalbum1_2".data).getLastD []) := by
  refine ⟨rfl, ?_⟩
  rintro ⟨s1, s2, h, -, -, -, -⟩
  have hx : ('x' : Char) = 'a' := congrArg (fun l : List Char => l.headD ' ') h
  exact absurd hx (by decide)

/-- C9 (amended): for the album page type, link_parse succeeds with the
pair of parsed integers whenever the trailing path segment is of the
form album<ownerId>_<albumId> with both parts non-empty digit sequences;
malformed input fails with a ParseError: when the segment does not
contain the token "album" at all, and when the underscore-separated
parts following the token are non-numeric (pyInt returns none on
either).  Success is however not limited to exact pattern matches (see
the counterexample). -/
theorem c9_album_link_parse (link s1 s2 : List Char) :
    ((splitOnChar '/' link).getLastD [] = albumTok ++ s1 ++ '_' :: s2 →
        s1 ≠ [] → s2 ≠ [] →
        (∀ c ∈ s1, isAsciiDigit c = true) → (∀ c ∈ s2, isAsciiDigit c = true) →
        link_parse link .album =
          .ok (.inl (((digitsVal s1 : Nat) : Int), ((digitsVal s2 : Nat) : Int)))) ∧
      (containsSeq albumTok ((splitOnChar '/' link).getLastD []) = false →
        link_parse link .album = .error .parseError) ∧
      ((splitOnChar '/' link).getLastD [] = albumTok ++ s1 ++ '_' :: s2 →
        containsSeq albumTok (s1 ++ '_' :: s2) = false →
        ('_' : Char) ∉ s1 → ('_' : Char) ∉ s2 →
        (pyInt s1 = none ∨ pyInt s2 = none) →
        link_parse link .album = .error .parseError) := by
  refine ⟨?_, ?_, ?_⟩
  · intro hseg h1 h2 hd1 hd2
    have hnotin : ('a' : Char) ∉ s1 ++ '_' :: s2 := by
      intro hmem
      rcases List.mem_append.mp hmem with h | h
      · exact absurd (hd1 'a' h) (by decide)
      · rcases List.mem_cons.mp h with h | h
        · exact absurd h (by decide)
        · exact absurd (hd2 'a' h) (by decide)
    have hcf : containsSeq albumTok (s1 ++ '_' :: s2) = false := by
      cases hh : containsSeq albumTok (s1 ++ '_' :: s2)
      · rfl
      · exact absurd (containsSeq_head 'a' albumTokTail (s1 ++ '_' :: s2) hh) hnotin
    have hu1 : ('_' : Char) ∉ s1 := fun hm => absurd (hd1 '_' hm) (by decide)
    have hu2 : ('_' : Char) ∉ s2 := fun hm => absurd (hd2 '_' hm) (by decide)
    have hsplit1 : splitStr 'a' albumTokTail ((splitOnChar '/' link).getLastD []) =
        [[], s1 ++ '_' :: s2] := by
      rw [hseg, List.append_assoc, albumTok,
        splitStr_token_head 'a' albumTokTail (s1 ++ '_' :: s2),
        splitStr_no_occur 'a' albumTokTail (s1 ++ '_' :: s2) hcf]
    have hids : splitOnChar '_' (s1 ++ '_' :: s2) = [s1, s2] := by
      rw [splitOnChar_append '_' s1 s2 hu1, splitOnChar_no_occur '_' s2 hu2]
    have hp1 : pyInt s1 = some ((digitsVal s1 : Nat) : Int) := pyInt_digits s1 h1 hd1
    have hp2 : pyInt s2 = some ((digitsVal s2 : Nat) : Int) := pyInt_digits s2 h2 hd2
    simp only [link_parse, hsplit1]
    have hget : ([[], s1 ++ '_' :: s2] : List (List Char))[1]? = some (s1 ++ '_' :: s2) :=
      rfl
    rw [hget]
    simp only [hids]
    have hget2 : ([s1, s2] : List (List Char))[1]? = some s2 := rfl
    rw [hget2]
    have hhead : ([s1, s2] : List (List Char)).headD [] = s1 := rfl
    rw [hhead, hp1]
    simp [hp2]
  · intro hno
    have hsplit := splitStr_no_occur 'a' albumTokTail
      ((splitOnChar '/' link).getLastD []) hno
    simp only [link_parse, hsplit]
    rfl
  · intro hseg hcf hu1 hu2 hnone
    have hsplit1 : splitStr 'a' albumTokTail ((splitOnChar '/' link).getLastD []) =
        [[], s1 ++ '_' :: s2] := by
      rw [hseg, List.append_assoc, albumTok,
        splitStr_token_head 'a' albumTokTail (s1 ++ '_' :: s2),
        splitStr_no_occur 'a' albumTokTail (s1 ++ '_' :: s2) hcf]
    have hids : splitOnChar '_' (s1 ++ '_' :: s2) = [s1, s2] := by
      rw [splitOnChar_append '_' s1 s2 hu1, splitOnChar_no_occur '_' s2 hu2]
    simp only [link_parse, hsplit1]
    have hget : ([[], s1 ++ '_' :: s2] : List (List Char))[1]? = some (s1 ++ '_' :: s2) :=
      rfl
    rw [hget]
    simp only [hids]
    have hget2 : ([s1, s2] : List (List Char))[1]? = some s2 := rfl
    rw [hget2]
    have hhead : ([s1, s2] : List (List Char)).headD [] = s1 := rfl
    rw [hhead]
    rcases hnone with h | h
    · rw [h]
    · cases h1 : pyInt s1
      · rfl
      · simp [h]

/-- C9 witness: the well-formed link vk.com/album12_34 parses to
(12, 34); vk.com/foo (no "album" token) fails with ParseError; and
vk.com/album12x_34 (non-numeric first part) fails with ParseError. -/
theorem c9_album_link_parse_witness :
    link_parse "vk.com/album12_34".data .album = .ok (.inl (12, 34)) ∧
      link_parse "vk.com/foo".data .album = .error .parseError ∧
      link_parse "vk.com/album12x_34".data .album = .error .parseError := by
  refine ⟨?_, ?_, ?_⟩
  · exact (c9_album_link_parse "vk.com/album12_34".data ['1', '2'] ['3', '4']).1
      rfl (by decide) (by decide) (by decide) (by decide)
  · exact (c9_album_link_parse "vk.com/foo".data [] []).2.1 rfl
  · exact (c9_album_link_parse "vk.com/album12x_34".data ['1', '2', 'x'] ['3', '4']).2.2
      rfl rfl (by decide) (by decide) (Or.inl rfl)

/-! ## C3: granularity of ApiError recovery in the orchestration -/

theorem seqBlocks_cons_none (b : BlockOut) (rest : List BlockOut) (h : b.exitc = none) :
    seqBlocks (b :: rest) =
      ⟨b.titles ++ (seqBlocks rest).titles, b.reports ++ (seqBlocks rest).reports,
        b.files ++ (seqBlocks rest).files, (seqBlocks rest).exitc⟩ := by
  rw [seqBlocks, h]

/-- C3 counterexample: two custom albums T1 and T2, with the remote side
raising an ApiError on every custom-album page query.  The error on T1
is caught by the single try/except around the whole custom-album loop,
so T2 is never processed (the claim says processing continues with the
next album), and the report is the fixed label "(--main) album", not the
failing album title T1.  The pseudo-album blocks still run and the exit
code is 0. -/
theorem c3_counterexample :
    mainRun numFailConn fmt0 fetch0 (.ok [⟨"T1".data, 0, 11⟩, ⟨"T2".data, 0, 22⟩])
        [] paramsAll true 5 =
      ⟨[taggedTitle, wallTitle, profileTitle, savedTitle], [mainLabel], [], 0⟩ ∧
      "T2".data ∉ (mainRun numFailConn fmt0 fetch0
        (.ok [⟨"T1".data, 0, 11⟩, ⟨"T2".data, 0, 22⟩]) [] paramsAll true 5).processed ∧
      "T1".data ∉ (mainRun numFailConn fmt0 fetch0
        (.ok [⟨"T1".data, 0, 11⟩, ⟨"T2".data, 0, 22⟩]) [] paramsAll true 5).reports :=
  ⟨rfl, by decide, by decide⟩

/-- C3 (amended): an ApiError raised while sizing or paging is caught at
selection-block granularity, not per album: the --main block covers the
whole custom-album loop (an error there skips the remaining custom
albums), and each of tagged, wall, profile and saved is its own block.
The error is reported with the fixed flag label of the block (for the
custom loop, "(--main) album"), not with the album display title,
processing continues with the later blocks, and the exit code stays 0
when no fatal error occurs elsewhere. -/
theorem c3_block_level_recovery (conn : Conn) (fmt : Int → List Char)
    (fetch : List Char → Except FetchErr (List UInt8))
    (getAlbums : Except ApiErr (List AlbumInfo)) (path : List Char)
    (params : Params) (isUser : Bool) (owner : Int) (albums : List AlbumInfo)
    (hm : params.main = true)
    (hg : getAlbums = .ok albums)
    (hpc : (processCustoms conn fmt fetch path owner albums).2.2 = .apiErr)
    (ht : (stdBlock conn fmt fetch path owner (isUser && params.tagged)
      taggedTitle taggedLabel (.num 0) true).exitc = none)
    (hw : (stdBlock conn fmt fetch path owner params.system_wall
      wallTitle wallLabel (.tok "wall".data) false).exitc = none)
    (hp : (stdBlock conn fmt fetch path owner params.system_profile
      profileTitle profileLabel (.tok "profile".data) false).exitc = none)
    (hs : (stdBlock conn fmt fetch path owner params.system_saved
      savedTitle savedLabel (.tok "saved".data) false).exitc = none) :
    (mainRun conn fmt fetch getAlbums path params isUser owner).exit = 0 ∧
      (mainRun conn fmt fetch getAlbums path params isUser owner).reports =
        mainLabel ::
          ((stdBlock conn fmt fetch path owner (isUser && params.tagged)
              taggedTitle taggedLabel (.num 0) true).reports ++
            ((stdBlock conn fmt fetch path owner params.system_wall
              wallTitle wallLabel (.tok "wall".data) false).reports ++
              ((stdBlock conn fmt fetch path owner params.system_profile
                profileTitle profileLabel (.tok "profile".data) false).reports ++
                (stdBlock conn fmt fetch path owner params.system_saved
                  savedTitle savedLabel (.tok "saved".data) false).reports))) ∧
      (mainRun conn fmt fetch getAlbums path params isUser owner).processed =
        (processCustoms conn fmt fetch path owner albums).1 ++
          ((stdBlock conn fmt fetch path owner (isUser && params.tagged)
              taggedTitle taggedLabel (.num 0) true).titles ++
            ((stdBlock conn fmt fetch path owner params.system_wall
              wallTitle wallLabel (.tok "wall".data) false).titles ++
              ((stdBlock conn fmt fetch path owner params.system_profile
                profileTitle profileLabel (.tok "profile".data) false).titles ++
                (stdBlock conn fmt fetch path owner params.system_saved
                  savedTitle savedLabel (.tok "saved".data) false).titles))) := by
  rcases hb : processCustoms conn fmt fetch path owner albums with ⟨ts, fs, st⟩
  rw [hb] at hpc
  simp only at hpc
  subst hpc
  have hmb : mainBlock conn fmt fetch path owner getAlbums params =
      ⟨ts, [mainLabel], fs, none⟩ := by
    rw [mainBlock.eq_def, hm, hg]
    simp [hb]
  rw [mainRun, seqBlocks_cons_none _ _ (by rw [hmb]),
    seqBlocks_cons_none _ _ ht, seqBlocks_cons_none _ _ hw,
    seqBlocks_cons_none _ _ hp, seqBlocks_cons_none _ _ hs, hmb]
  refine ⟨rfl, ?_, ?_⟩ <;> simp [seqBlocks, hb]

/-- C3 witness: one custom album T1 whose page query raises an ApiError,
while the tagged, wall, profile and saved blocks succeed: the run
reports "(--main) album", processes the four pseudo-albums, and exits
with code 0. -/
theorem c3_block_level_recovery_witness :
    (mainRun numFailConn fmt0 fetch0 (.ok [⟨"T1".data, 0, 11⟩])
        [] paramsAll true 5).exit = 0 ∧
      (mainRun numFailConn fmt0 fetch0 (.ok [⟨"T1".data, 0, 11⟩])
          [] paramsAll true 5).reports =
        mainLabel ::
          ((stdBlock numFailConn fmt0 fetch0 [] 5 (true && paramsAll.tagged)
              taggedTitle taggedLabel (.num 0) true).reports ++
            ((stdBlock numFailConn fmt0 fetch0 [] 5 paramsAll.system_wall
              wallTitle wallLabel (.tok "wall".data) false).reports ++
              ((stdBlock numFailConn fmt0 fetch0 [] 5 paramsAll.system_profile
                profileTitle profileLabel (.tok "profile".data) false).reports ++
                (stdBlock numFailConn fmt0 fetch0 [] 5 paramsAll.system_saved
                  savedTitle savedLabel (.tok "saved".data) false).reports))) ∧
      (mainRun numFailConn fmt0 fetch0 (.ok [⟨"T1".data, 0, 11⟩])
          [] paramsAll true 5).processed =
        (processCustoms numFailConn fmt0 fetch0 [] 5 [⟨"T1".data, 0, 11⟩]).1 ++
          ((stdBlock numFailConn fmt0 fetch0 [] 5 (true && paramsAll.tagged)
              taggedTitle taggedLabel (.num 0) true).titles ++
            ((stdBlock numFailConn fmt0 fetch0 [] 5 paramsAll.system_wall
              wallTitle wallLabel (.tok "wall".data) false).titles ++
              ((stdBlock numFailConn fmt0 fetch0 [] 5 paramsAll.system_profile
                profileTitle profileLabel (.tok "profile".data) false).titles ++
                (stdBlock numFailConn fmt0 fetch0 [] 5 paramsAll.system_saved
                  savedTitle savedLabel (.tok "saved".data) false).titles))) :=
  c3_block_level_recovery numFailConn fmt0 fetch0 (.ok [⟨"T1".data, 0, 11⟩])
    [] paramsAll true 5 [⟨"T1".data, 0, 11⟩] rfl rfl rfl rfl rfl rfl rfl

end VkPhotos
